import Mathlib

/-!
Verification development for the llm-cache-server repository
(`src/app/utils.py`, `src/app/cache.py`, `src/app/provider_registry.py`,
`src/app/main.py`).

The Python source is shallowly embedded: every function of the repository
that the properties below mention is translated into an executable Lean
definition carrying the source name.  Python dictionaries produced by the
OpenAI SDK's `to_dict()` are modelled as structures whose `Option` fields
mean "key present/absent" (`to_dict` excludes `None` values, so an absent
key and a `None` value coincide), plus an `extra` association list standing
for any further keys the code never inspects.  Operations that can raise
(`KeyError`, `IndexError`, `TypeError`, pydantic `ValidationError`) return
`Option`/`Except`, with `none`/`.error` marking the raised exception.
-/

namespace LlmCacheServer

/-- Token-count accounting object (OpenAI `CompletionUsage`); the repository
never inspects its fields, only its presence. -/
structure Usage where
  prompt_tokens : Nat
  completion_tokens : Nat
  total_tokens : Nat
deriving DecidableEq, Repr

/-- Embeds `utils.py` `ToolCallFunction`: name and arguments of one tool call. -/
structure ToolCallFunction where
  name : String
  arguments : String
deriving DecidableEq, Repr

/-- Embeds `utils.py` `ToolCall`: one entry of a delta's `tool_calls` list. -/
structure ToolCall where
  id : String
  index : Nat
  type : String
  function : ToolCallFunction
deriving DecidableEq, Repr

/-- The `delta` dict of one streamed choice.  `extra` stands for keys other
than the four the code knows about. -/
structure Delta where
  role : Option String
  reasoning_content : Option String
  content : Option String
  tool_calls : Option (List ToolCall)
  extra : List (String × String)
deriving DecidableEq, Repr

/-- One element of a raw upstream chunk's `choices` list, as a dict.
Required-by-the-SDK keys are `Option` so that malformed events (missing
keys) are representable. -/
structure RawChoice where
  index : Option Nat
  delta : Option Delta
  finish_reason : Option String
  extra : List (String × String)
deriving DecidableEq, Repr

/-- A raw upstream stream event (`ChatCompletionChunk.to_dict()`). -/
structure RawChunk where
  id : Option String
  created : Option Nat
  model : Option String
  choices : Option (List RawChoice)
  usage : Option Usage
  extra : List (String × String)
deriving DecidableEq, Repr

/-- A choice dict inside a stored (merged) chunk: a `RawChoice` that may
additionally carry the `delta_list` key that `merge_chunks` installs. -/
structure MChoice where
  index : Option Nat
  delta : Option Delta
  delta_list : Option (List Delta)
  finish_reason : Option String
  extra : List (String × String)
deriving DecidableEq, Repr

/-- A stored (merged) chunk dict, element of `merge_chunks`' result. -/
structure MChunk where
  id : Option String
  created : Option Nat
  model : Option String
  choices : Option (List MChoice)
  usage : Option Usage
  extra : List (String × String)
deriving DecidableEq, Repr

/-- A raw choice dict viewed as a merged-choice dict (no `delta_list` key). -/
def RawChoice.toM (c : RawChoice) : MChoice :=
  { index := c.index, delta := c.delta, delta_list := none,
    finish_reason := c.finish_reason, extra := c.extra }

/-- A raw chunk dict viewed as a merged-chunk dict (`chunk.to_dict()`
appended unchanged by `merge_chunks`' `else` branch). -/
def RawChunk.toM (c : RawChunk) : MChunk :=
  { id := c.id, created := c.created, model := c.model,
    choices := (c.choices).map (fun l => l.map RawChoice.toM),
    usage := c.usage, extra := c.extra }

/-- Python truthiness of an optional string: `None` and `""` are falsy. -/
def strTruthy : Option String → Bool
  | none => false
  | some s => !s.isEmpty

/-- An event that carries a usage object or a truthy `finish_reason` on its
first choice takes `merge_chunks`' `else` branch (closes the current run). -/
def isClosing (c : RawChunk) : Bool :=
  c.usage.isSome ||
    (match c.choices with
     | some (ch :: _) => strTruthy ch.finish_reason
     | _ => false)

/-- Models `merged_chunks[-1]["choices"][0]["delta_list"].append(d)` from
`utils.py` line 200: `none` is the uncaught `KeyError`/`IndexError` when the
last merged chunk has no choices, an empty choices list, or no `delta_list`
key. -/
def appendDelta (m : MChunk) (d : Delta) : Option MChunk :=
  match m.choices with
  | none => none
  | some [] => none
  | some (ch :: tail) =>
    match ch.delta_list with
    | none => none
    | some ds =>
      some { m with choices := some ({ ch with delta_list := some (ds ++ [d]) } :: tail) }

/-- The loop of `merge_chunks` (`utils.py` lines 198-202) over
`chunks[1:]`, carrying the already-closed merged chunks `done` and the
current last merged chunk `last`. -/
def mergeLoop (done : List MChunk) (last : MChunk) : List RawChunk → Option (List MChunk)
  | [] => some (done ++ [last])
  | c :: cs =>
    if c.usage.isSome then
      mergeLoop (done ++ [last]) c.toM cs
    else
      match c.choices with
      | none => none
      | some [] => none
      | some (ch :: _) =>
        if strTruthy ch.finish_reason then
          mergeLoop (done ++ [last]) c.toM cs
        else
          match ch.delta with
          | none => none
          | some d =>
            match appendDelta last d with
            | none => none
            | some last' => mergeLoop done last' cs

/-- Embeds `utils.py` `merge_chunks` (lines 194-203).  The first chunk's dict gets
`choices[0]["delta_list"] = [choices[0]["delta"]]` (the `delta` key itself
is kept); each later chunk either appends its first choice's delta to the
last merged chunk's `delta_list` or, when it carries usage or a truthy
finish marker, is appended unchanged.  `none` models an uncaught
`IndexError`/`KeyError` (empty input, missing choices/delta, or a
delta-only chunk arriving after a closing chunk). -/
def merge_chunks : List RawChunk → Option (List MChunk)
  | [] => none
  | c0 :: rest =>
    match c0.choices with
    | none => none
    | some [] => none
    | some (ch0 :: chTail) =>
      match ch0.delta with
      | none => none
      | some d0 =>
        let m0 : MChunk :=
          { id := c0.id, created := c0.created, model := c0.model,
            choices := some ({ ch0.toM with delta_list := some [d0] } :: chTail.map RawChoice.toM),
            usage := c0.usage, extra := c0.extra }
        mergeLoop [] m0 rest

/-- A frame yielded by the replay generator: a `data: <json>` line holding a
chunk dict, or the terminal `data: [DONE]` marker. -/
inductive Frame where
  | data : MChunk → Frame
  | done : Frame
deriving DecidableEq, Repr

/-- Outcome of one iteration of `stream_cache_response`'s loop body for the
chunk `c`, with `first` the deep-copied `cached_chunks[0]`:
`ok frames` (one frame per member of `c`'s `delta_list`), `verbatim`
(a `KeyError` was caught, the chunk is yielded unchanged), or `crash`
(an uncaught `IndexError` on an empty choices list). -/
inductive ReplayStep where
  | ok : List Frame → ReplayStep
  | verbatim : ReplayStep
  | crash : ReplayStep
deriving DecidableEq, Repr

/-- The `try` block of `cache.py` lines 64-71 for one cached chunk.
`chunk["choices"][0]["delta_list"]` raises `KeyError` (caught) when the
`choices` or `delta_list` key is absent and `IndexError` (uncaught) when a
choices list is empty; for each delta the code deep-copies `first`, deletes
its `choices[0]["delta_list"]` and overwrites `choices[0]["delta"]`. -/
def replayChunk (first : MChunk) (c : MChunk) : ReplayStep :=
  match c.choices with
  | none => .verbatim
  | some [] => .crash
  | some (ch :: _) =>
    match ch.delta_list with
    | none => .verbatim
    | some [] => .ok []
    | some ds =>
      match first.choices with
      | none => .verbatim
      | some [] => .crash
      | some (fch :: ftail) =>
        match fch.delta_list with
        | none => .verbatim
        | some _ =>
          .ok (ds.map (fun d =>
            Frame.data { first with
              choices := some ({ fch with delta_list := none, delta := some d } :: ftail) }))

/-- The loop of `stream_cache_response` over the cached chunk list, with the
fixed `first_chunk`. -/
def replayLoop (first : MChunk) : List MChunk → Option (List Frame)
  | [] => some [Frame.done]
  | c :: cs =>
    match replayChunk first c with
    | .crash => none
    | .verbatim =>
      match replayLoop first cs with
      | none => none
      | some fs => some (Frame.data c :: fs)
    | .ok frames =>
      match replayLoop first cs with
      | none => none
      | some fs => some (frames ++ fs)

/-- Embeds `cache.py` `stream_cache_response` (lines 61-72): replay a stored merged
chunk list as a sequence of frames ending in `[DONE]`.  `none` models an
uncaught exception (`IndexError` on `cached_chunks[0]` for the empty list or
on an empty `choices` list). -/
def stream_cache_response (cached : List MChunk) : Option (List Frame) :=
  match cached with
  | [] => none
  | first :: _ => replayLoop first cached

/-- A run-joining event sharing the first event's envelope and first-choice
metadata, differing only in the incremental delta payload. -/
def mkJoin (c0 : RawChunk) (ch0 : RawChoice) (ct : List RawChoice) (d : Delta) : RawChunk :=
  { c0 with choices := some ({ ch0 with delta := some d } :: ct) }

/-- The current run's merged chunk: base dict `b` whose first choice is `ch`
with `delta_list` set to `l`. -/
def withDL (b : MChunk) (ch : MChoice) (ct : List MChoice) (l : List Delta) : MChunk :=
  { b with choices := some ({ ch with delta_list := some l } :: ct) }

theorem appendDelta_withDL (b : MChunk) (ch : MChoice) (ct : List MChoice)
    (l : List Delta) (d : Delta) :
    appendDelta (withDL b ch ct l) d = some (withDL b ch ct (l ++ [d])) := rfl

theorem mergeLoop_joins (c0 : RawChunk) (ch0 : RawChoice) (ct : List RawChoice)
    (hU : c0.usage = none) (hF : strTruthy ch0.finish_reason = false) :
    ∀ (ds : List Delta) (ts : List RawChunk) (done : List MChunk)
      (b : MChunk) (ch : MChoice) (mct : List MChoice) (l : List Delta),
      mergeLoop done (withDL b ch mct l) (ds.map (mkJoin c0 ch0 ct) ++ ts)
        = mergeLoop done (withDL b ch mct (l ++ ds)) ts := by
  intro ds
  induction ds with
  | nil => intro ts done b ch mct l; simp
  | cons d ds ih =>
    intro ts done b ch mct l
    have step :
        mergeLoop done (withDL b ch mct l) (mkJoin c0 ch0 ct d :: (ds.map (mkJoin c0 ch0 ct) ++ ts))
          = mergeLoop done (withDL b ch mct (l ++ [d])) (ds.map (mkJoin c0 ch0 ct) ++ ts) := by
      simp [mergeLoop, mkJoin, hU, hF, appendDelta_withDL]
    simpa [List.append_assoc] using step.trans (ih ts done b ch mct (l ++ [d]))

/-- A closing event with the shape `merge_chunks`' `else` branch needs: it
carries usage, or a nonempty choices list whose head has a truthy finish
marker. -/
def closesWell (t : RawChunk) : Prop :=
  t.usage.isSome = true ∨
    ∃ ch l, t.choices = some (ch :: l) ∧ strTruthy ch.finish_reason = true

theorem mergeLoop_closers :
    ∀ (ts : List RawChunk) (done : List MChunk) (last : MChunk),
      (∀ t ∈ ts, closesWell t) →
      mergeLoop done last ts = some (done ++ [last] ++ ts.map RawChunk.toM) := by
  intro ts
  induction ts with
  | nil => intro done last _; simp [mergeLoop]
  | cons t ts ih =>
    intro done last h
    have ht := h t (List.mem_cons_self t ts)
    have hrest : ∀ u ∈ ts, closesWell u := fun u hu => h u (List.mem_cons_of_mem t hu)
    rcases ht with hu | ⟨ch, l, hc, hf⟩
    · rw [mergeLoop, if_pos hu, ih (done ++ [last]) t.toM hrest]
      simp
    · rw [mergeLoop]
      rcases hus : t.usage with _ | u
      · simp only [hus, Option.isSome_none, Bool.false_eq_true, if_false, hc, hf, if_true]
        rw [ih (done ++ [last]) t.toM hrest]
        simp
      · rw [if_pos (by simp [hus]), ih (done ++ [last]) t.toM hrest]
        simp

/-- The good path of `merge_chunks`: a first event, `ds` further
envelope-sharing delta events, then only closing events.  The result is one
merged chunk holding all the deltas followed by each closing event stored
unchanged as its own element. -/
theorem merge_run (c0 : RawChunk) (ch0 : RawChoice) (ct : List RawChoice) (d0 : Delta)
    (ds : List Delta) (ts : List RawChunk)
    (hch : c0.choices = some (ch0 :: ct))
    (hd0 : ch0.delta = some d0)
    (hjoin : ds = [] ∨ (c0.usage = none ∧ strTruthy ch0.finish_reason = false))
    (hts : ∀ t ∈ ts, closesWell t) :
    merge_chunks (c0 :: ds.map (mkJoin c0 ch0 ct) ++ ts)
      = some (withDL c0.toM ch0.toM (ct.map RawChoice.toM) (d0 :: ds) :: ts.map RawChunk.toM) := by
  have hm0 :
      merge_chunks (c0 :: ds.map (mkJoin c0 ch0 ct) ++ ts)
        = mergeLoop [] (withDL c0.toM ch0.toM (ct.map RawChoice.toM) [d0])
            (ds.map (mkJoin c0 ch0 ct) ++ ts) := by
    simp [merge_chunks, hch, hd0, withDL, RawChunk.toM, RawChoice.toM]
  rcases hjoin with hnil | ⟨hU, hF⟩
  · subst hnil
    rw [hm0]
    simpa using mergeLoop_closers ts [] _ hts
  · rw [hm0, mergeLoop_joins c0 ch0 ct hU hF ds ts [] c0.toM ch0.toM (ct.map RawChoice.toM) [d0],
      mergeLoop_closers ts [] _ hts]
    simp

theorem mkJoin_self (c0 : RawChunk) (ch0 : RawChoice) (ct : List RawChoice) (d0 : Delta)
    (hch : c0.choices = some (ch0 :: ct)) (hd0 : ch0.delta = some d0) :
    mkJoin c0 ch0 ct d0 = c0 := by
  cases c0 with
  | mk i cr m ch u ex =>
    cases ch0 with
    | mk ix dl fr ex2 =>
      subst hd0
      subst hch
      rfl

theorem replayChunk_run (c0 : RawChunk) (ch0 : RawChoice) (ct : List RawChoice)
    (d0 : Delta) (ds : List Delta) :
    replayChunk (withDL c0.toM ch0.toM (ct.map RawChoice.toM) (d0 :: ds))
        (withDL c0.toM ch0.toM (ct.map RawChoice.toM) (d0 :: ds))
      = .ok ((d0 :: ds).map (fun d => Frame.data (mkJoin c0 ch0 ct d).toM)) := by
  simp [replayChunk, withDL, mkJoin, RawChunk.toM, RawChoice.toM]

theorem replayLoop_closers (first : MChunk) :
    ∀ (ts : List RawChunk), (∀ t ∈ ts, t.choices ≠ some []) →
      replayLoop first (ts.map RawChunk.toM)
        = some (ts.map (fun t => Frame.data t.toM) ++ [Frame.done]) := by
  intro ts
  induction ts with
  | nil => intro _; simp [replayLoop]
  | cons t ts ih =>
    intro h
    have ht := h t (List.mem_cons_self t ts)
    have hrest := ih (fun u hu => h u (List.mem_cons_of_mem t hu))
    have hstep : replayChunk first t.toM = .verbatim := by
      rcases hc : t.choices with _ | cl
      · simp [replayChunk, RawChunk.toM, hc]
      · cases cl with
        | nil => exact absurd hc ht
        | cons ch l => simp [replayChunk, RawChunk.toM, hc, RawChoice.toM]
    simp [replayLoop, hstep, hrest]

/-- C1.  Amended round-trip law.  `merge_chunks` followed by
`stream_cache_response` reproduces the captured events exactly — one frame
per original event, in order, with the original envelope and delta, followed
only by the `[DONE]` marker — for the sequences the code handles without
raising: a first event with a nonempty choices list and a present delta,
then any number of events identical to the first except for their delta
payload (none of them closing), then only closing events, each of which has
a nonempty present choices list.  (The unrestricted law of the claim is
refuted by `c1_roundtrip_counterexample`.) -/
theorem c1_roundtrip_single_run (c0 : RawChunk) (ch0 : RawChoice) (ct : List RawChoice)
    (d0 : Delta) (ds : List Delta) (ts : List RawChunk)
    (hch : c0.choices = some (ch0 :: ct))
    (hd0 : ch0.delta = some d0)
    (hjoin : ds = [] ∨ (c0.usage = none ∧ strTruthy ch0.finish_reason = false))
    (hts : ∀ t ∈ ts, closesWell t)
    (htne : ∀ t ∈ ts, t.choices ≠ some []) :
    merge_chunks (c0 :: ds.map (mkJoin c0 ch0 ct) ++ ts)
        = some (withDL c0.toM ch0.toM (ct.map RawChoice.toM) (d0 :: ds) :: ts.map RawChunk.toM) ∧
      stream_cache_response
          (withDL c0.toM ch0.toM (ct.map RawChoice.toM) (d0 :: ds) :: ts.map RawChunk.toM)
        = some ((c0 :: ds.map (mkJoin c0 ch0 ct) ++ ts).map (fun e => Frame.data e.toM)
            ++ [Frame.done]) := by
  refine ⟨merge_run c0 ch0 ct d0 ds ts hch hd0 hjoin hts, ?_⟩
  have hrep := replayLoop_closers (withDL c0.toM ch0.toM (ct.map RawChoice.toM) (d0 :: ds)) ts htne
  have hface := replayChunk_run c0 ch0 ct d0 ds
  simp [stream_cache_response, replayLoop, hface, hrep, mkJoin_self c0 ch0 ct d0 hch hd0,
    List.map_map, Function.comp]

/-- A content-only delta, as produced by a typical completion stream. -/
def sampleDelta (s : String) : Delta :=
  { role := none, reasoning_content := none, content := some s, tool_calls := none, extra := [] }

/-- A plain streamed choice carrying `sampleDelta s` and no finish marker. -/
def sampleChoice (s : String) : RawChoice :=
  { index := some 0, delta := some (sampleDelta s), finish_reason := none, extra := [] }

/-- A plain delta-only stream event. -/
def sampleChunk (s : String) : RawChunk :=
  { id := some "chatcmpl-7", created := some 1700000000, model := some "m1",
    choices := some [sampleChoice s], usage := none, extra := [] }

/-- A finish event: same envelope, empty delta, `finish_reason = "stop"`. -/
def sampleFinish : RawChunk :=
  { sampleChunk "" with choices := some [{ sampleChoice "" with finish_reason := some "stop" }] }

/-- A usage-accounting event with an empty `choices` list, as OpenAI emits
after the finish chunk when `stream_options.include_usage` is set. -/
def sampleUsageChunk : RawChunk :=
  { id := some "chatcmpl-7", created := some 1700000000, model := some "m1",
    choices := some [], usage := some ⟨3, 5, 8⟩, extra := [] }

/-- C1, counterexample.  The round-trip law fails as stated: for the event
sequence delta, finish, usage-with-empty-choices (the shape OpenAI produces
under `include_usage`), `merge_chunks` succeeds but `stream_cache_response`
raises an uncaught `IndexError` on the stored usage chunk's empty `choices`
list (`cache.py` line 65), so replay does not reproduce the events. -/
theorem c1_roundtrip_counterexample :
    merge_chunks [sampleChunk "a", sampleFinish, sampleUsageChunk] ≠ none ∧
      (merge_chunks [sampleChunk "a", sampleFinish, sampleUsageChunk]).bind
          stream_cache_response = none := by decide

theorem c1_roundtrip_single_run_witness :
    ((sampleChunk "a").choices = some (sampleChoice "a" :: []) ∧
      (sampleChoice "a").delta = some (sampleDelta "a") ∧
      ([sampleDelta "b"] = [] ∨
        ((sampleChunk "a").usage = none ∧ strTruthy (sampleChoice "a").finish_reason = false)) ∧
      (∀ t ∈ [sampleFinish], closesWell t) ∧
      (∀ t ∈ [sampleFinish], t.choices ≠ some [])) ∧
    (merge_chunks (sampleChunk "a" ::
          [sampleDelta "b"].map (mkJoin (sampleChunk "a") (sampleChoice "a") []) ++ [sampleFinish])
        = some (withDL (sampleChunk "a").toM (sampleChoice "a").toM []
            (sampleDelta "a" :: [sampleDelta "b"]) :: [sampleFinish].map RawChunk.toM) ∧
      stream_cache_response
          (withDL (sampleChunk "a").toM (sampleChoice "a").toM []
            (sampleDelta "a" :: [sampleDelta "b"]) :: [sampleFinish].map RawChunk.toM)
        = some ((sampleChunk "a" ::
              [sampleDelta "b"].map (mkJoin (sampleChunk "a") (sampleChoice "a") [])
              ++ [sampleFinish]).map (fun e => Frame.data e.toM) ++ [Frame.done])) := by
  have hts : ∀ t ∈ [sampleFinish], closesWell t := by
    intro t ht
    simp only [List.mem_singleton] at ht
    subst ht
    exact Or.inr ⟨_, [], rfl, by decide⟩
  have htne : ∀ t ∈ [sampleFinish], t.choices ≠ some [] := by decide
  exact ⟨⟨rfl, rfl, Or.inr ⟨rfl, rfl⟩, hts, htne⟩,
    c1_roundtrip_single_run (sampleChunk "a") (sampleChoice "a") [] (sampleDelta "a")
      [sampleDelta "b"] [sampleFinish] rfl rfl (Or.inr ⟨rfl, rfl⟩) hts htne⟩

/-- C4.  Amended merge rule.  (a) An event carrying usage or a truthy finish
marker takes the `else` branch of `merge_chunks` and is appended as its own
stored chunk, carrying its own envelope; compaction succeeds whenever every
event after the first closing event is itself closing.  (b) A delta-only
event arriving after a closing event does NOT start a new run: the append to
the closing chunk's missing `delta_list` key raises an uncaught `KeyError`,
so compaction fails on such multi-run inputs (refuting the claim's
"compaction succeeds on every such multi-run input sequence"; see
`c4_merge_counterexample`). -/
theorem c4_closing_events (c0 : RawChunk) (ch0 : RawChoice) (ct : List RawChoice)
    (d0 : Delta) (ds : List Delta) (ts : List RawChunk)
    (hch : c0.choices = some (ch0 :: ct))
    (hd0 : ch0.delta = some d0)
    (hjoin : ds = [] ∨ (c0.usage = none ∧ strTruthy ch0.finish_reason = false))
    (hts : ∀ t ∈ ts, closesWell t) :
    merge_chunks (c0 :: ds.map (mkJoin c0 ch0 ct) ++ ts)
        = some (withDL c0.toM ch0.toM (ct.map RawChoice.toM) (d0 :: ds) :: ts.map RawChunk.toM) ∧
      (∀ t r : RawChunk, closesWell t → r.usage = none →
        ∀ rch rl, r.choices = some (rch :: rl) → strTruthy rch.finish_reason = false →
        ∀ dr, rch.delta = some dr → merge_chunks [c0, t, r] = none) := by
  refine ⟨merge_run c0 ch0 ct d0 ds ts hch hd0 hjoin hts, ?_⟩
  intro t r hclose hru rch rl hrc hrf dr hrd
  have hm0 :
      merge_chunks [c0, t, r]
        = mergeLoop [] (withDL c0.toM ch0.toM (ct.map RawChoice.toM) [d0]) [t, r] := by
    simp [merge_chunks, hch, hd0, withDL, RawChunk.toM, RawChoice.toM]
  rw [hm0]
  have happ : appendDelta t.toM dr = none := by
    rcases hc : t.choices with _ | cl
    · simp [appendDelta, RawChunk.toM, hc]
    · cases cl with
      | nil => simp [appendDelta, RawChunk.toM, hc]
      | cons ch l => simp [appendDelta, RawChunk.toM, hc, RawChoice.toM]
  have hstep :
      mergeLoop [] (withDL c0.toM ch0.toM (ct.map RawChoice.toM) [d0]) [t, r]
        = mergeLoop [withDL c0.toM ch0.toM (ct.map RawChoice.toM) [d0]] t.toM [r] := by
    rcases hclose with hu | ⟨ch, l, hc, hf⟩
    · simp [mergeLoop, hu]
    · rcases hus : t.usage with _ | u
      · simp [mergeLoop, hus, hc, hf]
      · simp [mergeLoop, hus]
  rw [hstep]
  simp [mergeLoop, hru, hrc, hrf, hrd, happ]

/-- C4, counterexample.  A delta-only event after a finish event makes
`merge_chunks` raise `KeyError` (`utils.py` line 200): compaction does not
succeed on this multi-run input. -/
theorem c4_merge_counterexample :
    merge_chunks [sampleChunk "x", sampleFinish, sampleChunk "y"] = none := by decide

theorem c4_closing_events_witness :
    ((sampleChunk "x").choices = some (sampleChoice "x" :: []) ∧
      (sampleChoice "x").delta = some (sampleDelta "x") ∧
      (([] : List Delta) = [] ∨
        ((sampleChunk "x").usage = none ∧ strTruthy (sampleChoice "x").finish_reason = false)) ∧
      (∀ t ∈ [sampleUsageChunk], closesWell t)) ∧
    (merge_chunks (sampleChunk "x" ::
          ([] : List Delta).map (mkJoin (sampleChunk "x") (sampleChoice "x") [])
          ++ [sampleUsageChunk])
        = some (withDL (sampleChunk "x").toM (sampleChoice "x").toM [] [sampleDelta "x"]
            :: [sampleUsageChunk].map RawChunk.toM) ∧
      merge_chunks [sampleChunk "x", sampleFinish, sampleChunk "y"] = none) := by
  have hts : ∀ t ∈ [sampleUsageChunk], closesWell t := by
    intro t ht
    simp only [List.mem_singleton] at ht
    subst ht
    exact Or.inl (by decide)
  have h := c4_closing_events (sampleChunk "x") (sampleChoice "x") [] (sampleDelta "x")
    [] [sampleUsageChunk] rfl rfl (Or.inl rfl) hts
  refine ⟨⟨rfl, rfl, Or.inl rfl, hts⟩, h.1, ?_⟩
  exact h.2 sampleFinish (sampleChunk "y") (Or.inr ⟨_, [], rfl, by decide⟩) rfl
    (sampleChoice "y") [] rfl rfl (sampleDelta "y") rfl

/-- Embeds `utils.py` `ChunkDelta` (pydantic): the delta fields the proxy knows;
validation ignores unknown keys. -/
structure ChunkDelta where
  role : Option String
  reasoning_content : Option String
  content : Option String
  tool_calls : Option (List ToolCall)
deriving DecidableEq, Repr

/-- Embeds `utils.py` `ChunkChoice` (pydantic): `index` and `delta` are required,
`finish_reason` defaults to `None`. -/
structure ChunkChoice where
  index : Nat
  delta : ChunkDelta
  finish_reason : Option String
deriving DecidableEq, Repr

/-- Embeds `utils.py` `StreamChunk` (pydantic): `id`, `created`, `model`, `choices`
are all required. -/
structure StreamChunk where
  id : String
  created : Nat
  model : String
  choices : List ChunkChoice
deriving DecidableEq, Repr

/-- Pydantic validation of a raw delta dict: the four known keys are taken,
unknown keys are ignored. -/
def parseChunkDelta (d : Delta) : ChunkDelta :=
  { role := d.role, reasoning_content := d.reasoning_content,
    content := d.content, tool_calls := d.tool_calls }

/-- Pydantic validation of one raw choice dict; `none` is the
`ValidationError` raised when `index` or `delta` is missing. -/
def parseChunkChoice (c : RawChoice) : Option ChunkChoice :=
  match c.index, c.delta with
  | some i, some d => some { index := i, delta := parseChunkDelta d, finish_reason := c.finish_reason }
  | _, _ => none

/-- Embeds `StreamChunk.from_dict` (utils.py lines 77-80): pydantic validation of a
raw chunk dict.  `none` is the `ValidationError` raised when a required
field is missing. -/
def StreamChunk.from_dict (c : RawChunk) : Option StreamChunk :=
  match c.id, c.created, c.model, c.choices with
  | some i, some cr, some m, some chs =>
    match chs.mapM parseChunkChoice with
    | some pcs => some { id := i, created := cr, model := m, choices := pcs }
    | none => none
  | _, _, _, _ => none

/-- Embeds `StreamChunk.to_dict` (utils.py lines 82-84, `exclude_none=True`): the
dict a forwarded frame serializes, viewed in the raw-chunk shape.  A
`StreamChunk` has no `usage` field and no unknown keys, so those come out
empty. -/
def ChunkDelta.to_dict (d : ChunkDelta) : Delta :=
  { role := d.role, reasoning_content := d.reasoning_content,
    content := d.content, tool_calls := d.tool_calls, extra := [] }

/-- The dict of one validated choice inside a forwarded frame. -/
def ChunkChoice.to_dict (c : ChunkChoice) : RawChoice :=
  { index := some c.index, delta := some c.delta.to_dict,
    finish_reason := c.finish_reason, extra := [] }

/-- The dict of a forwarded frame (`json.dumps(chunk.to_dict())`). -/
def StreamChunk.to_dict (s : StreamChunk) : RawChunk :=
  { id := some s.id, created := some s.created, model := some s.model,
    choices := some (s.choices.map ChunkChoice.to_dict), usage := none, extra := [] }

/-- One observable step of the capture generator `stream_response`:
consuming an upstream event, emitting a `data:` frame to the caller,
emitting the `data: [DONE]` frame, the simulated delay, or the final
`cache_response` write of the merged chunk list. -/
inductive SAction where
  | consume : RawChunk → SAction
  | emitData : StreamChunk → SAction
  | emitDone : SAction
  | sleep : SAction
  | persist : List MChunk → SAction
deriving DecidableEq, Repr

/-- The actions of one loop iteration on a well-formed event: consume it,
emit its validated frame, and sleep when simulating with cache on. -/
def stepActions (use_cache simulate : Bool) (p : RawChunk × StreamChunk) : List SAction :=
  SAction.consume p.1 :: SAction.emitData p.2 ::
    (if simulate && use_cache then [SAction.sleep] else [])

/-- What `stream_response` does after the upstream iterator is exhausted:
yield `[DONE]`, then, with caching on, call
`cache_response(..., json.dumps(merge_chunks(response_chunks)), ...)`.
The second component is `false` when the generator raised
(`merge_chunks` crashing on the collected events). -/
def streamEnd (use_cache : Bool) (collected : List RawChunk) : List SAction × Bool :=
  if use_cache then
    match merge_chunks collected with
    | some m => ([SAction.emitDone, SAction.persist m], true)
    | none => ([SAction.emitDone], false)
  else ([SAction.emitDone], true)

/-- The `async for` loop of `stream_response` (utils.py lines 227-301) with
`collected` the `response_chunks` gathered so far.  Each event is parsed
with `StreamChunk.from_dict` (a `ValidationError` aborts the generator:
second component `false`), its frame is yielded, and with caching on the
raw event is appended for the final merge. -/
def streamLoop (use_cache simulate : Bool) (collected : List RawChunk) :
    List RawChunk → List SAction × Bool
  | [] => streamEnd use_cache collected
  | e :: es =>
    match StreamChunk.from_dict e with
    | none => ([SAction.consume e], false)
    | some c =>
      let rest := streamLoop use_cache simulate
        (if use_cache then collected ++ [e] else collected) es
      (stepActions use_cache simulate (e, c) ++ rest.1, rest.2)

/-- Embeds `utils.py` `stream_response` (lines 206-301), restricted to the
`is_glm46 = False` branch (`chat_request.model ≠ "glm-4.6"`); the upstream
`create` call itself and the GLM-4.6 rewriting branch are outside this
embedding.  Returns the ordered observable actions of the generator and
whether it finished without raising. -/
def stream_response (use_cache simulate : Bool) (events : List RawChunk) :
    List SAction × Bool :=
  streamLoop use_cache simulate [] events

theorem streamLoop_all_parsed (use_cache simulate : Bool) :
    ∀ (events : List RawChunk) (cs : List StreamChunk) (collected : List RawChunk),
      events.mapM StreamChunk.from_dict = some cs →
      streamLoop use_cache simulate collected events
        = ((events.zip cs).flatMap (stepActions use_cache simulate)
            ++ (streamEnd use_cache (if use_cache then collected ++ events else collected)).1,
          (streamEnd use_cache (if use_cache then collected ++ events else collected)).2) := by
  intro events
  induction events with
  | nil =>
    intro cs collected h
    simp only [List.mapM_nil, Option.pure_def, Option.some.injEq] at h
    subst h
    simp [streamLoop]
  | cons e es ih =>
    intro cs collected h
    simp only [List.mapM_cons, Option.pure_def, Option.bind_eq_bind, Option.bind_eq_some,
      Option.some.injEq] at h
    obtain ⟨c, hc, cs2, hcs2, rfl⟩ := h
    rw [streamLoop]
    simp only [hc]
    rw [ih cs2 (if use_cache then collected ++ [e] else collected) hcs2]
    cases use_cache <;> simp [List.append_assoc]

/-- C2.  Amended forwarding law.  For a stream of a model other than
`glm-4.6` in which every event validates, the generator consumes event
`i`, immediately emits one frame for it, and only then consumes event
`i + 1`; the emitted frame is the event's `StreamChunk` validation (its
`id`/`created`/`model` envelope and its choices' `index`, `delta` —
restricted to `role`/`reasoning_content`/`content`/`tool_calls` — and
`finish_reason`), not the event verbatim: `usage` and unknown fields are
dropped (see `c2_forwarding_counterexample`).  After the last event, `[DONE]`
is emitted and, with caching on, the merged chunk list is persisted. -/
theorem c2_forward_each_event (use_cache simulate : Bool)
    (events : List RawChunk) (cs : List StreamChunk)
    (hparse : events.mapM StreamChunk.from_dict = some cs) :
    stream_response use_cache simulate events
      = ((events.zip cs).flatMap (stepActions use_cache simulate)
          ++ (streamEnd use_cache (if use_cache then events else [])).1,
        (streamEnd use_cache (if use_cache then events else [])).2) := by
  rw [stream_response, streamLoop_all_parsed use_cache simulate events cs [] hparse]
  cases use_cache <;> simp

/-- An event carrying a usage object (and an unrecognized key) alongside a
normal delta. -/
def usageEvent : RawChunk :=
  { id := some "chatcmpl-9", created := some 1700000001, model := some "m2",
    choices := some [sampleChoice "u"], usage := some ⟨1, 1, 2⟩,
    extra := [("system_fingerprint", "fp_1")] }

/-- C2, counterexample.  The frame `stream_response` forwards for
`usageEvent` is its `StreamChunk` validation, whose serialized dict lacks
the event's `usage` object and `system_fingerprint` key: the event is not
forwarded unmodified. -/
theorem c2_forwarding_counterexample :
    stream_response false false [usageEvent]
      = ([SAction.consume usageEvent,
          SAction.emitData
            { id := "chatcmpl-9", created := 1700000001, model := "m2",
              choices := [{ index := 0,
                            delta := { role := none, reasoning_content := none,
                                       content := some "u", tool_calls := none },
                            finish_reason := none }] },
          SAction.emitDone], true) ∧
      (StreamChunk.to_dict
          { id := "chatcmpl-9", created := 1700000001, model := "m2",
            choices := [{ index := 0,
                          delta := { role := none, reasoning_content := none,
                                     content := some "u", tool_calls := none },
                          finish_reason := none }] }) ≠ usageEvent := by decide

theorem c2_forward_each_event_witness :
    ([sampleChunk "w"].mapM StreamChunk.from_dict
        = some [{ id := "chatcmpl-7", created := 1700000000, model := "m1",
                  choices := [{ index := 0,
                                delta := { role := none, reasoning_content := none,
                                           content := some "w", tool_calls := none },
                                finish_reason := none }] }]) ∧
    stream_response false false [sampleChunk "w"]
      = (([sampleChunk "w"].zip
            [{ id := "chatcmpl-7", created := 1700000000, model := "m1",
               choices := [{ index := 0,
                             delta := { role := none, reasoning_content := none,
                                        content := some "w", tool_calls := none },
                             finish_reason := none }] }]).flatMap (stepActions false false)
          ++ (streamEnd false (if false then [sampleChunk "w"] else [])).1,
        (streamEnd false (if false then [sampleChunk "w"] else [])).2) :=
  ⟨by decide, c2_forward_each_event false false [sampleChunk "w"] _ (by decide)⟩

/-- C3.  Amended unrecognized-event behavior.  When an event fails
`StreamChunk` validation, the capture generator raises: the event is
consumed but no frame is forwarded for it, no `[DONE]` is emitted, and
nothing is persisted — the event is dropped and the capture crashes (the
code's verbatim fallback exists only on the replay path, `cache.py` lines
70-71). -/
theorem streamLoop_crash (use_cache simulate : Bool) (bad : RawChunk) (post : List RawChunk)
    (hbad : StreamChunk.from_dict bad = none) :
    ∀ (pre : List RawChunk) (cs : List StreamChunk) (collected : List RawChunk),
      pre.mapM StreamChunk.from_dict = some cs →
      streamLoop use_cache simulate collected (pre ++ bad :: post)
        = ((pre.zip cs).flatMap (stepActions use_cache simulate)
            ++ [SAction.consume bad], false) := by
  intro pre
  induction pre with
  | nil =>
    intro cs collected h
    simp only [List.mapM_nil, Option.pure_def, Option.some.injEq] at h
    subst h
    simp [streamLoop, hbad]
  | cons e es ih =>
    intro cs collected h
    simp only [List.mapM_cons, Option.pure_def, Option.bind_eq_bind, Option.bind_eq_some,
      Option.some.injEq] at h
    obtain ⟨c, hc, cs2, hcs2, rfl⟩ := h
    rw [List.cons_append, streamLoop]
    simp only [hc]
    rw [ih cs2 (if use_cache then collected ++ [e] else collected) hcs2]
    simp [List.append_assoc]

/-- C3.  Amended unrecognized-event behavior.  When an event fails
`StreamChunk` validation, the capture generator raises: the event is
consumed but no frame is forwarded for it, no `[DONE]` is emitted, and
nothing is persisted — the event is dropped and the capture crashes (the
code's verbatim fallback exists only on the replay path, `cache.py` lines
70-71). -/
theorem c3_unrecognized_event_crashes (use_cache simulate : Bool)
    (pre : List RawChunk) (cs : List StreamChunk) (bad : RawChunk) (post : List RawChunk)
    (hpre : pre.mapM StreamChunk.from_dict = some cs)
    (hbad : StreamChunk.from_dict bad = none) :
    stream_response use_cache simulate (pre ++ bad :: post)
      = ((pre.zip cs).flatMap (stepActions use_cache simulate)
          ++ [SAction.consume bad], false) := by
  rw [stream_response]
  exact streamLoop_crash use_cache simulate bad post hbad pre cs [] hpre

/-- An event whose shape fails `StreamChunk` validation: the required `id`
field is missing. -/
def malformedEvent : RawChunk :=
  { id := none, created := some 1700000002, model := some "m3",
    choices := some [sampleChoice "z"], usage := none, extra := [("event", "ping")] }

/-- C3, counterexample.  With caching on, a stream containing a malformed
event mid-stream crashes the capture at that event: the trace shows the
malformed event consumed but never forwarded, no single-event run stored
(no persist action at all), and the generator raising (flag `false`). -/
theorem c3_unrecognized_counterexample :
    stream_response true false [sampleChunk "g", malformedEvent, sampleChunk "h"]
      = ([SAction.consume (sampleChunk "g"),
          SAction.emitData
            { id := "chatcmpl-7", created := 1700000000, model := "m1",
              choices := [{ index := 0,
                            delta := { role := none, reasoning_content := none,
                                       content := some "g", tool_calls := none },
                            finish_reason := none }] },
          SAction.consume malformedEvent], false) := by decide

theorem c3_unrecognized_event_crashes_witness :
    ([sampleChunk "g"].mapM StreamChunk.from_dict
        = some [{ id := "chatcmpl-7", created := 1700000000, model := "m1",
                  choices := [{ index := 0,
                                delta := { role := none, reasoning_content := none,
                                           content := some "g", tool_calls := none },
                                finish_reason := none }] }] ∧
      StreamChunk.from_dict malformedEvent = none) ∧
    stream_response true true ([sampleChunk "g"] ++ malformedEvent :: [sampleChunk "h"])
      = (([sampleChunk "g"].zip
            [{ id := "chatcmpl-7", created := 1700000000, model := "m1",
               choices := [{ index := 0,
                             delta := { role := none, reasoning_content := none,
                                        content := some "g", tool_calls := none },
                             finish_reason := none }] }]).flatMap (stepActions true true)
          ++ [SAction.consume malformedEvent], false) :=
  ⟨⟨by decide, by decide⟩,
    c3_unrecognized_event_crashes true true [sampleChunk "g"] _ malformedEvent
      [sampleChunk "h"] (by decide) (by decide)⟩

/-- A decoded JSON request body (the `body` dict of `main.py`).  JSON
numbers are modelled as integers; the verified properties do not depend on
numeric rendering. -/
inductive JValue where
  | jnull : JValue
  | jbool : Bool → JValue
  | jnum : Int → JValue
  | jstr : String → JValue
  | jarr : List JValue → JValue
  | jobj : List (String × JValue) → JValue
deriving Repr

/-- JSON string escaping for `json.dumps` (quote and backslash; further
escapes do not matter for the verified properties, only that the encoding
is a function of the string). -/
def escapeChar (c : Char) : String :=
  if c = '\\' then "\\\\" else if c = '"' then "\\\"" else String.singleton c

/-- A JSON string literal. -/
def dumpString (s : String) : String :=
  "\"" ++ String.join (s.data.map escapeChar) ++ "\""

/-- Python `sep.join(parts)`. -/
def joinSep (sep : String) : List String → String
  | [] => ""
  | [x] => x
  | x :: xs => x ++ sep ++ joinSep sep xs

/-- Ordering of serialized object entries by key, as `sort_keys=True`
sorts a dict's items (keys are unique in a decoded dict, so only the key
is compared). -/
def keyLE (p q : String × String) : Prop := p.1 ≤ q.1

instance : DecidableRel keyLE := fun p q => inferInstanceAs (Decidable (p.1 ≤ q.1))

instance : IsTotal (String × String) keyLE := ⟨fun a b => le_total a.1 b.1⟩

instance : IsTrans (String × String) keyLE := ⟨fun _ _ _ h1 h2 => le_trans h1 h2⟩

/-- One `"key": value` fragment of a serialized object. -/
def fragment (p : String × String) : String := dumpString p.1 ++ ": " ++ p.2

mutual

/-- Models `json.dumps(body, sort_keys=True)` with the default separators
`", "` and `": "`: object entries are serialized in ascending key order. -/
def dumps : JValue → String
  | .jnull => "null"
  | .jbool true => "true"
  | .jbool false => "false"
  | .jnum n => toString n
  | .jstr s => dumpString s
  | .jarr items => "[" ++ joinSep ", " (dumpsList items) ++ "]"
  | .jobj fields =>
    "\x7b" ++ joinSep ", " ((List.insertionSort keyLE (dumpsPairs fields)).map fragment) ++ "\x7d"

/-- Serialize the elements of a JSON array in order. -/
def dumpsList : List JValue → List String
  | [] => []
  | x :: xs => dumps x :: dumpsList xs

/-- Serialize the values of an object's entries, keeping the keys. -/
def dumpsPairs : List (String × JValue) → List (String × String)
  | [] => []
  | (k, v) :: rest => (k, dumps v) :: dumpsPairs rest

end

/-- Models `hashlib.sha256(...).hexdigest()`, as a fixed deterministic
digest function of the serialized text; the verified properties depend only
on the digest being a function of its input. -/
def sha256hex (s : String) : String :=
  String.mk (Nat.toDigits 16 (s.data.foldl (fun a c => (a * 131 + c.toNat) % (2 ^ 256)) 5381))

/-- Embeds `utils.py` `get_request_hash` (lines 188-190):
`sha256(json.dumps(body, sort_keys=True).encode()).hexdigest()`. -/
def get_request_hash (body : JValue) : String := sha256hex (dumps body)

/-- Pairwise-distinct strings (the keys of a decoded Python dict are
necessarily distinct). -/
def distinctKeys : List String → Bool
  | [] => true
  | k :: rest => !rest.contains k && distinctKeys rest

mutual

/-- Well-formedness of a decoded body: every object (recursively) has
pairwise-distinct keys, as any dict produced by `json.loads` does. -/
def wfJson : JValue → Bool
  | .jnull => true
  | .jbool _ => true
  | .jnum _ => true
  | .jstr _ => true
  | .jarr items => wfArr items
  | .jobj fields => distinctKeys (fields.map Prod.fst) && wfObj fields

/-- Well-formedness of each element of an array. -/
def wfArr : List JValue → Bool
  | [] => true
  | x :: xs => wfJson x && wfArr xs

/-- Well-formedness of each value of an object. -/
def wfObj : List (String × JValue) → Bool
  | [] => true
  | (_, v) :: rest => wfJson v && wfObj rest

end

mutual

/-- Equality of two decoded bodies as maps: identical canonical content,
with object entries compared by key lookup rather than position (arrays
stay ordered).  With distinct keys on both sides this is exactly "equal
after reordering object keys, recursively". -/
def mapEquiv : JValue → JValue → Bool
  | .jnull, .jnull => true
  | .jbool a, .jbool b => a == b
  | .jnum a, .jnum b => a == b
  | .jstr a, .jstr b => a == b
  | .jarr a, .jarr b => arrEquiv a b
  | .jobj a, .jobj b => a.length == b.length && objLe a b
  | _, _ => false

/-- Pointwise map-equality of two arrays. -/
def arrEquiv : List JValue → List JValue → Bool
  | [], [] => true
  | x :: xs, y :: ys => mapEquiv x y && arrEquiv xs ys
  | _, _ => false

/-- Every entry of the first object matches the second object under key
lookup. -/
def objLe : List (String × JValue) → List (String × JValue) → Bool
  | [], _ => true
  | (k, v) :: rest, l2 => lookEquiv k v l2 && objLe rest l2

/-- Look up `k` in an entry list (first match, as a dict lookup) and
compare the found value with `v`. -/
def lookEquiv : String → JValue → List (String × JValue) → Bool
  | _, _, [] => false
  | k, v, (k2, v2) :: rest => if k == k2 then mapEquiv v v2 else lookEquiv k v rest

end

theorem dumpsList_eq_map : ∀ l : List JValue, dumpsList l = l.map dumps := by
  intro l
  induction l with
  | nil => simp [dumpsList]
  | cons x xs ih => simp [dumpsList, ih]

theorem dumpsPairs_eq_map :
    ∀ f : List (String × JValue), dumpsPairs f = f.map (fun p => (p.1, dumps p.2)) := by
  intro f
  induction f with
  | nil => simp [dumpsPairs]
  | cons p rest ih => cases p with | mk k v => simp [dumpsPairs, ih]

theorem sizeOf_lt_of_mem_arr {x : JValue} {l : List JValue} (h : x ∈ l) :
    sizeOf x < sizeOf (JValue.jarr l) := by
  have hx := List.sizeOf_lt_of_mem h
  simp only [JValue.jarr.sizeOf_spec]
  omega

theorem sizeOf_lt_of_mem_obj {k : String} {v : JValue} {f : List (String × JValue)}
    (h : (k, v) ∈ f) : sizeOf v < sizeOf (JValue.jobj f) := by
  have hx := List.sizeOf_lt_of_mem h
  simp only [Prod.mk.sizeOf_spec] at hx
  simp only [JValue.jobj.sizeOf_spec]
  omega

theorem wfArr_mem : ∀ {l : List JValue}, wfArr l = true → ∀ {x : JValue}, x ∈ l →
    wfJson x = true := by
  intro l
  induction l with
  | nil => intro _ x hx; exact absurd hx (List.not_mem_nil x)
  | cons y ys ih =>
    intro h x hx
    rw [wfArr, Bool.and_eq_true] at h
    rcases List.mem_cons.mp hx with rfl | hmem
    · exact h.1
    · exact ih h.2 hmem

theorem wfObj_mem : ∀ {f : List (String × JValue)}, wfObj f = true →
    ∀ {k : String} {v : JValue}, (k, v) ∈ f → wfJson v = true := by
  intro f
  induction f with
  | nil => intro _ k v hx; exact absurd hx (List.not_mem_nil _)
  | cons p rest ih =>
    intro h k v hx
    cases p with
    | mk k2 v2 =>
      rw [wfObj, Bool.and_eq_true] at h
      rcases List.mem_cons.mp hx with heq | hmem
      · cases heq; exact h.1
      · exact ih h.2 hmem

theorem distinctKeys_nodup : ∀ {l : List String}, distinctKeys l = true → l.Nodup := by
  intro l
  induction l with
  | nil => intro _; exact List.nodup_nil
  | cons k rest ih =>
    intro h
    rw [distinctKeys, Bool.and_eq_true] at h
    refine List.nodup_cons.mpr ⟨?_, ih h.2⟩
    intro hmem
    have h1 := h.1
    have h2 : rest.contains k = true := by simpa using hmem
    rw [h2] at h1
    exact absurd h1 (by decide)

theorem objLe_mem : ∀ {a b : List (String × JValue)}, objLe a b = true →
    ∀ {k : String} {v : JValue}, (k, v) ∈ a → lookEquiv k v b = true := by
  intro a
  induction a with
  | nil => intro b _ k v hx; exact absurd hx (List.not_mem_nil _)
  | cons p rest ih =>
    intro b h k v hx
    cases p with
    | mk k2 v2 =>
      rw [objLe, Bool.and_eq_true] at h
      rcases List.mem_cons.mp hx with heq | hmem
      · cases heq; exact h.1
      · exact ih h.2 hmem

theorem lookEquiv_found : ∀ {b : List (String × JValue)} {k : String} {v : JValue},
    lookEquiv k v b = true → ∃ w, (k, w) ∈ b ∧ mapEquiv v w = true := by
  intro b
  induction b with
  | nil => intro k v h; rw [lookEquiv] at h; exact absurd h (by decide)
  | cons p rest ih =>
    intro k v h
    cases p with
    | mk k2 v2 =>
      rw [lookEquiv] at h
      by_cases hk : (k == k2) = true
      · rw [if_pos hk] at h
        rw [beq_iff_eq] at hk
        subst hk
        exact ⟨v2, List.mem_cons_self _ _, h⟩
      · rw [if_neg hk] at h
        obtain ⟨w, hw, hvw⟩ := ih h
        exact ⟨w, List.mem_cons_of_mem _ hw, hvw⟩

/-- Strict version of the key order on serialized entries. -/
def keyLT (p q : String × String) : Prop := p.1 < q.1

instance : IsAntisymm (String × String) keyLT :=
  ⟨fun _ _ h1 h2 => absurd h2 (lt_asymm h1)⟩

theorem sorted_keyLT_of_nodup {l : List (String × String)}
    (hs : List.Sorted keyLE l) (hn : (l.map Prod.fst).Nodup) : List.Pairwise keyLT l := by
  have hne : List.Pairwise (fun p q : String × String => p.1 ≠ q.1) l :=
    (List.pairwise_map.mp hn)
  exact (hs.and hne).imp (fun h => lt_of_le_of_ne h.1 h.2)

theorem jvalue_sizeOf_pos (j : JValue) : 0 < sizeOf j := by
  cases j <;> simp_arith

/-- Canonical serialization is invariant under map-equality: two well-formed
bodies equal as maps (same content, object keys possibly reordered)
serialize identically under `sort_keys=True`. -/
theorem dumps_eq_of_mapEquiv :
    ∀ (n : Nat) (j1 j2 : JValue), sizeOf j1 ≤ n → wfJson j1 = true → wfJson j2 = true →
      mapEquiv j1 j2 = true → dumps j1 = dumps j2 := by
  intro n
  induction n with
  | zero =>
    intro j1 j2 hsz _ _ _
    exact absurd hsz (by have := jvalue_sizeOf_pos j1; omega)
  | succ n ih =>
    intro j1 j2 hsz hw1 hw2 heq
    cases j1 with
    | jnull => cases j2 <;> first | rfl | simp [mapEquiv] at heq
    | jbool a =>
      cases j2 <;> simp [mapEquiv] at heq
      rw [heq]
    | jnum a =>
      cases j2 <;> simp [mapEquiv] at heq
      rw [heq]
    | jstr a =>
      cases j2 <;> simp [mapEquiv] at heq
      rw [heq]
    | jarr a =>
      cases j2 <;> simp [mapEquiv] at heq
      case jarr b =>
        rw [wfJson] at hw1 hw2
        have hmaps : ∀ (x : List JValue) (y : List JValue),
            (∀ u ∈ x, sizeOf u ≤ n) → wfArr x = true → wfArr y = true →
            arrEquiv x y = true → x.map dumps = y.map dumps := by
          intro x
          induction x with
          | nil =>
            intro y _ _ _ hxy
            cases y with
            | nil => rfl
            | cons z zs => simp [arrEquiv] at hxy
          | cons u us ihx =>
            intro y hb hwx hwy hxy
            cases y with
            | nil => simp [arrEquiv] at hxy
            | cons z zs =>
              rw [arrEquiv, Bool.and_eq_true] at hxy
              rw [wfArr, Bool.and_eq_true] at hwx hwy
              have h1 := ih u z (hb u (List.mem_cons_self u us)) hwx.1 hwy.1 hxy.1
              have h2 := ihx zs (fun w hw => hb w (List.mem_cons_of_mem u hw))
                hwx.2 hwy.2 hxy.2
              simp [h1, h2]
        have hbound : ∀ u ∈ a, sizeOf u ≤ n := by
          intro u hu
          have := sizeOf_lt_of_mem_arr hu
          omega
        rw [dumps, dumps, dumpsList_eq_map, dumpsList_eq_map, hmaps a b hbound hw1 hw2 heq]
    | jobj a =>
      cases j2 <;> simp [mapEquiv] at heq
      case jobj b =>
        obtain ⟨hlen, hle⟩ := heq
        rw [wfJson, Bool.and_eq_true] at hw1 hw2
        have hsub : (a.map (fun p => (p.1, dumps p.2))) ⊆ (b.map (fun p => (p.1, dumps p.2))) := by
          intro p hp
          obtain ⟨⟨k, v⟩, hkv, rfl⟩ := List.mem_map.mp hp
          obtain ⟨w, hwmem, hvw⟩ := lookEquiv_found (objLe_mem hle hkv)
          have hdv : dumps v = dumps w := by
            refine ih v w ?_ (wfObj_mem hw1.2 hkv) (wfObj_mem hw2.2 hwmem) hvw
            have := sizeOf_lt_of_mem_obj hkv
            omega
          exact List.mem_map.mpr ⟨(k, w), hwmem, by simp [hdv]⟩
        have hkeysA : ((a.map (fun p => (p.1, dumps p.2))).map Prod.fst) = a.map Prod.fst := by
          simp [List.map_map, Function.comp]
        have hkeysB : ((b.map (fun p => (p.1, dumps p.2))).map Prod.fst) = b.map Prod.fst := by
          simp [List.map_map, Function.comp]
        have hndA : (a.map (fun p => (p.1, dumps p.2))).Nodup :=
          List.Nodup.of_map Prod.fst (hkeysA ▸ distinctKeys_nodup hw1.1)
        have hperm : List.Perm (a.map (fun p => (p.1, dumps p.2)))
            (b.map (fun p => (p.1, dumps p.2))) :=
          (hndA.subperm hsub).perm_of_length_le (by simp [hlen])
        have hsorteq :
            List.insertionSort keyLE (a.map (fun p => (p.1, dumps p.2)))
              = List.insertionSort keyLE (b.map (fun p => (p.1, dumps p.2))) := by
          have hpermS :
              List.Perm (List.insertionSort keyLE (a.map (fun p => (p.1, dumps p.2))))
                (List.insertionSort keyLE (b.map (fun p => (p.1, dumps p.2)))) :=
            ((List.perm_insertionSort keyLE _).trans hperm).trans
              (List.perm_insertionSort keyLE _).symm
          refine List.eq_of_perm_of_sorted (r := keyLT) hpermS ?_ ?_
          · refine sorted_keyLT_of_nodup (List.sorted_insertionSort keyLE _) ?_
            have : List.Perm ((List.insertionSort keyLE (a.map (fun p => (p.1, dumps p.2)))).map
                Prod.fst) (a.map Prod.fst) := by
              have := (List.perm_insertionSort keyLE (a.map (fun p => (p.1, dumps p.2)))).map
                Prod.fst
              rwa [hkeysA] at this
            exact this.nodup_iff.mpr (distinctKeys_nodup hw1.1)
          · refine sorted_keyLT_of_nodup (List.sorted_insertionSort keyLE _) ?_
            have : List.Perm ((List.insertionSort keyLE (b.map (fun p => (p.1, dumps p.2)))).map
                Prod.fst) (b.map Prod.fst) := by
              have := (List.perm_insertionSort keyLE (b.map (fun p => (p.1, dumps p.2)))).map
                Prod.fst
              rwa [hkeysB] at this
            exact this.nodup_iff.mpr (distinctKeys_nodup hw2.1)
        rw [dumps, dumps, dumpsPairs_eq_map, dumpsPairs_eq_map, hsorteq]

/-- C9.  `get_request_hash` is a pure function of the canonicalized body:
two decoded request bodies that are equal as maps — identical content,
object keys possibly ordered differently — hash to the same digest
(determinism on one body is the reflexive instance). -/
theorem c9_request_hash_key_order_invariant (r1 r2 : JValue)
    (h1 : wfJson r1 = true) (h2 : wfJson r2 = true) (heq : mapEquiv r1 r2 = true) :
    get_request_hash r1 = get_request_hash r2 := by
  rw [get_request_hash, get_request_hash,
    dumps_eq_of_mapEquiv (sizeOf r1) r1 r2 le_rfl h1 h2 heq]

/-- The body of the C5 scenario in the spec's field order. -/
def sampleBody1 : JValue :=
  .jobj [("model", .jstr "x"),
         ("messages", .jarr [.jobj [("role", .jstr "user"), ("content", .jstr "hi")]]),
         ("stream", .jbool false)]

/-- The same body with object keys reordered at both levels. -/
def sampleBody2 : JValue :=
  .jobj [("stream", .jbool false),
         ("messages", .jarr [.jobj [("content", .jstr "hi"), ("role", .jstr "user")]]),
         ("model", .jstr "x")]

theorem c9_request_hash_key_order_invariant_witness :
    (wfJson sampleBody1 = true ∧ wfJson sampleBody2 = true ∧
      mapEquiv sampleBody1 sampleBody2 = true) ∧
    get_request_hash sampleBody1 = get_request_hash sampleBody2 := by
  have h1 : wfJson sampleBody1 = true := by
    simp [sampleBody1, wfJson, wfObj, wfArr, distinctKeys]
  have h2 : wfJson sampleBody2 = true := by
    simp [sampleBody2, wfJson, wfObj, wfArr, distinctKeys]
  have heq : mapEquiv sampleBody1 sampleBody2 = true := by
    simp [sampleBody1, sampleBody2, mapEquiv, objLe, lookEquiv, arrEquiv]
  exact ⟨⟨h1, h2, heq⟩, c9_request_hash_key_order_invariant sampleBody1 sampleBody2 h1 h2 heq⟩

/-- Embeds `utils.py` `BUILTIN_BASE_URLS` (lines 87-92). -/
def BUILTIN_BASE_URLS : List String :=
  ["https://openrouter.ai/api/v1",
   "https://dashscope.aliyuncs.com/compatible-mode/v1",
   "https://api.deepseek.com/v1",
   "https://open.bigmodel.cn/api/paas/v4"]

/-- Embeds `utils.py` `get_all_base_urls` (lines 95-105): operator-supplied
additional URLs first, then the built-in list. -/
def get_all_base_urls (additional : List String) : List String :=
  additional ++ BUILTIN_BASE_URLS

/-- Embeds `provider_registry.py` `hash_api_key` (lines 8-10). -/
def hash_api_key (api_key : String) : String := sha256hex api_key

/-- Models `SELECT base_url FROM token_provider_cache WHERE token_hash = ?`: the
memo table is a map from token hash to the stored (nullable) base URL;
`none` means no row. -/
def lookupMemo (h : String) : List (String × Option String) → Option (Option String)
  | [] => none
  | (k, v) :: rest => if k == h then some v else lookupMemo h rest

/-- Embeds `provider_registry.py` `get_cached_provider` (lines 13-27): if a row
exists, return its `base_url` column — which may itself be NULL — else
`None`.  A stored NULL and an absent row are therefore both returned as
`none`. -/
def get_cached_provider (memo : List (String × Option String)) (api_key : String) :
    Option String :=
  match lookupMemo (hash_api_key api_key) memo with
  | none => none
  | some v => v

/-- Embeds `provider_registry.py` `cache_provider` (lines 30-45):
`INSERT OR REPLACE` keyed by the token hash. -/
def cache_provider (memo : List (String × Option String)) (api_key : String)
    (provider : Option String) : List (String × Option String) :=
  (hash_api_key api_key, provider) :: memo.filter (fun p => !(p.1 == hash_api_key api_key))

/-- Observable actions of `process_chat_request` and `detect_provider`:
the memo-table read/write, one trial completion request per candidate base
URL, the `check_cache` database lookup, the real upstream completion call,
and the `cache_response` write. -/
inductive PAction where
  | memoRead : PAction
  | trial : String → PAction
  | memoWrite : String → PAction
  | cacheLookup : PAction
  | upstreamCall : PAction
  | cacheWrite : PAction
deriving DecidableEq, Repr

/-- The inner loop of `utils.py` lines 174-179: scan the gathered results
for a successful entry whose URL equals `u`. -/
def innerLoop (u : String) : List (String × Bool × String) → Bool
  | [] => false
  | (ru, s, _) :: rest => (ru == u && s) || innerLoop u rest

/-- The outer loop of `utils.py` lines 174-179: walk the candidates in
priority order and return the first one with a successful result. -/
def outerLoop (results : List (String × Bool × String)) : List String → Option String
  | [] => none
  | u :: rest => if innerLoop u results then some u else outerLoop results rest

/-- Models `utils.py` line 182: the newline-join of one "  - url" line per
candidate base URL. -/
def accepted_urls (urls : List String) : String :=
  joinSep "\n" (urls.map (fun u => "  - " ++ u))

/-- The `ValueError` message of `utils.py` line 183. -/
def all_failed_msg (urls : List String) : String :=
  "All base URLs failed. Accepted base URLs:\n" ++ accepted_urls urls

deriving instance DecidableEq for Except

/-- Result of `detect_provider`: its observable action trace, the memo
table afterwards, and the returned base URL or the raised error. -/
structure DetectResult where
  trace : List PAction
  memo : List (String × Option String)
  res : Except String String
deriving DecidableEq, Repr

/-- Embeds `utils.py` `detect_provider` (lines 130-185).  `ok u` is the outcome of
the trial completion request against base URL `u` for this credential and
model (`test_base_url`), and `err u` the exception text on failure; the
trials are gathered for all candidates before the priority scan runs, so
the selection depends only on the outcomes, never on completion order.  On
success the winner is memoized with `cache_provider`; on total failure a
`ValueError` listing every candidate is raised and the memo table is left
untouched. -/
def detect_provider (memo : List (String × Option String)) (api_key : String)
    (additional : List String) (ok : String → Bool) (err : String → String) : DetectResult :=
  match get_cached_provider memo api_key with
  | some url => ⟨[PAction.memoRead], memo, .ok url⟩
  | none =>
    let urls := get_all_base_urls additional
    let results := urls.map (fun u => (u, ok u, if ok u then "" else err u))
    match outerLoop results urls with
    | some u =>
      ⟨PAction.memoRead :: urls.map PAction.trial ++ [PAction.memoWrite u],
        cache_provider memo api_key (some u), .ok u⟩
    | none =>
      ⟨PAction.memoRead :: urls.map PAction.trial, memo, .error (all_failed_msg urls)⟩

theorem innerLoop_map (ok : String → Bool) (err : String → String) (u : String) :
    ∀ urls : List String,
      innerLoop u (urls.map (fun v => (v, ok v, if ok v then "" else err v)))
        = urls.any (fun v => v == u && ok v) := by
  intro urls
  induction urls with
  | nil => rfl
  | cons v vs ih => simp [innerLoop, ih]

theorem any_beq_and (ok : String → Bool) (u : String) :
    ∀ urls : List String, u ∈ urls → urls.any (fun v => v == u && ok v) = ok u := by
  intro urls hu
  cases hoku : ok u with
  | true =>
    rw [List.any_eq_true]
    exact ⟨u, hu, by simp [hoku]⟩
  | false =>
    rw [List.any_eq_false]
    intro v _
    by_cases hv : (v == u) = true
    · rw [beq_iff_eq] at hv
      subst hv
      simp [hoku]
    · simp [Bool.and_eq_true, hv]

theorem outerLoop_eq_find (ok : String → Bool) (err : String → String)
    (urls0 : List String) :
    ∀ urls : List String, (∀ u ∈ urls, u ∈ urls0) →
      outerLoop (urls0.map (fun v => (v, ok v, if ok v then "" else err v))) urls
        = urls.find? ok := by
  intro urls
  induction urls with
  | nil => intro _; rfl
  | cons u rest ih =>
    intro hsub
    rw [outerLoop, innerLoop_map, any_beq_and ok u urls0 (hsub u (List.mem_cons_self u rest)),
      List.find?]
    cases hoku : ok u with
    | true => rfl
    | false => exact ih (fun v hv => hsub v (List.mem_cons_of_mem u hv))

theorem find?_first_success (ok : String → Bool) :
    ∀ l : List String, (∃ u ∈ l, ok u = true) →
      ∃ pre u post, l = pre ++ u :: post ∧ ok u = true ∧ (∀ v ∈ pre, ok v = false) ∧
        l.find? ok = some u := by
  intro l
  induction l with
  | nil => intro h; obtain ⟨u, hu, _⟩ := h; exact absurd hu (List.not_mem_nil u)
  | cons a rest ih =>
    intro h
    cases hoka : ok a with
    | true =>
      exact ⟨[], a, rest, rfl, hoka, by intro v hv; exact absurd hv (List.not_mem_nil v),
        by rw [List.find?, hoka]⟩
    | false =>
      obtain ⟨u, hu, hoku⟩ := h
      have hurest : u ∈ rest := by
        rcases List.mem_cons.mp hu with rfl | hm
        · rw [hoka] at hoku; exact absurd hoku (by decide)
        · exact hm
      obtain ⟨pre, w, post, hsplit, hokw, hpre, hfind⟩ := ih ⟨u, hurest, hoku⟩
      refine ⟨a :: pre, w, post, by simp [hsplit], hokw, ?_, by rw [List.find?, hoka, hfind]⟩
      intro v hv
      rcases List.mem_cons.mp hv with rfl | hm
      · exact hoka
      · exact hpre v hm

/-- C6.  Priority selection of `detect_provider`: for any candidate list
(operator extras first, then built-ins) and any trial-outcome assignment
with at least one success, the resolver runs one trial per candidate, then
returns the first candidate in priority order among those whose trial
succeeded.  The gathered outcomes are collected for all candidates before
the scan, so the result depends only on the outcome assignment — a
chronologically earlier success at a lower-priority candidate cannot win. -/
theorem c6_priority_first_success (memo : List (String × Option String)) (api_key : String)
    (additional : List String) (ok : String → Bool) (err : String → String)
    (hmiss : get_cached_provider memo api_key = none)
    (hex : ∃ u ∈ get_all_base_urls additional, ok u = true) :
    ∃ pre u post, get_all_base_urls additional = pre ++ u :: post ∧ ok u = true ∧
      (∀ v ∈ pre, ok v = false) ∧
      (detect_provider memo api_key additional ok err).res = .ok u ∧
      (detect_provider memo api_key additional ok err).trace
        = PAction.memoRead :: (get_all_base_urls additional).map PAction.trial
            ++ [PAction.memoWrite u] := by
  obtain ⟨pre, u, post, hsplit, hoku, hpre, hfind⟩ :=
    find?_first_success ok (get_all_base_urls additional) hex
  have houter :
      outerLoop ((get_all_base_urls additional).map
          (fun v => (v, ok v, if ok v then "" else err v))) (get_all_base_urls additional)
        = some u := by
    rw [outerLoop_eq_find ok err _ _ (fun v hv => hv), hfind]
  refine ⟨pre, u, post, hsplit, hoku, hpre, ?_, ?_⟩ <;>
    simp [detect_provider, hmiss, houter]

theorem c6_priority_first_success_witness :
    (get_cached_provider [] "sk-c6" = none ∧
      ∃ u ∈ get_all_base_urls ["https://extra.example/v1"],
        (fun v => v == "https://api.deepseek.com/v1") u = true) ∧
    ∃ pre u post,
      get_all_base_urls ["https://extra.example/v1"] = pre ++ u :: post ∧
      (fun v => v == "https://api.deepseek.com/v1") u = true ∧
      (∀ v ∈ pre, (fun v => v == "https://api.deepseek.com/v1") v = false) ∧
      (detect_provider [] "sk-c6" ["https://extra.example/v1"]
          (fun v => v == "https://api.deepseek.com/v1") (fun _ => "auth error")).res
        = .ok u ∧
      (detect_provider [] "sk-c6" ["https://extra.example/v1"]
          (fun v => v == "https://api.deepseek.com/v1") (fun _ => "auth error")).trace
        = PAction.memoRead
            :: (get_all_base_urls ["https://extra.example/v1"]).map PAction.trial
            ++ [PAction.memoWrite u] :=
  ⟨⟨rfl, ⟨"https://api.deepseek.com/v1", by decide, by decide⟩⟩,
    c6_priority_first_success [] "sk-c6" ["https://extra.example/v1"]
      (fun v => v == "https://api.deepseek.com/v1") (fun _ => "auth error") rfl
      ⟨"https://api.deepseek.com/v1", by decide, by decide⟩⟩

theorem joinSep_mem_split (sep : String) (f : String → String) :
    ∀ (l : List String) (u : String), u ∈ l →
      ∃ s1 s2, joinSep sep (l.map f) = s1 ++ f u ++ s2 := by
  intro l
  induction l with
  | nil => intro u hu; exact absurd hu (List.not_mem_nil u)
  | cons a rest ih =>
    intro u hu
    cases rest with
    | nil =>
      rcases List.mem_cons.mp hu with rfl | hm
      · exact ⟨"", "", by simp [joinSep]⟩
      · exact absurd hm (List.not_mem_nil u)
    | cons b bs =>
      rcases List.mem_cons.mp hu with rfl | hm
      · refine ⟨"", sep ++ joinSep sep ((b :: bs).map f), ?_⟩
        simp only [List.map_cons, joinSep, String.empty_append]
        rw [String.append_assoc]
      · obtain ⟨s1, s2, hs⟩ := ih u hm
        refine ⟨f a ++ sep ++ s1, s2, ?_⟩
        simp only [List.map_cons, joinSep] at hs ⊢
        rw [hs, ← String.append_assoc, ← String.append_assoc]

/-- C7.  All-candidates-rejected failure of `detect_provider`: when the
credential is not memoized and every trial fails, the resolver raises a
`ValueError` whose message lists every candidate tried (each base URL
occurs in the message), and the credential-to-endpoint memo table is
returned unchanged — no negative result is cached. -/
theorem c7_all_fail_lists_candidates (memo : List (String × Option String))
    (api_key : String) (additional : List String) (ok : String → Bool)
    (err : String → String)
    (hmiss : get_cached_provider memo api_key = none)
    (hfail : ∀ u ∈ get_all_base_urls additional, ok u = false) :
    (detect_provider memo api_key additional ok err).res
        = .error (all_failed_msg (get_all_base_urls additional)) ∧
      (detect_provider memo api_key additional ok err).memo = memo ∧
      ∀ u ∈ get_all_base_urls additional,
        ∃ s1 s2, all_failed_msg (get_all_base_urls additional) = s1 ++ ("  - " ++ u) ++ s2 := by
  have hfind : (get_all_base_urls additional).find? ok = none :=
    List.find?_eq_none.mpr (fun u hu => by simp [hfail u hu])
  have houter :
      outerLoop ((get_all_base_urls additional).map
          (fun v => (v, ok v, if ok v then "" else err v))) (get_all_base_urls additional)
        = none := by
    rw [outerLoop_eq_find ok err _ _ (fun v hv => hv), hfind]
  refine ⟨by simp [detect_provider, hmiss, houter], by simp [detect_provider, hmiss, houter], ?_⟩
  intro u hu
  obtain ⟨s1, s2, hs⟩ := joinSep_mem_split "\n" (fun v => "  - " ++ v)
    (get_all_base_urls additional) u hu
  refine ⟨"All base URLs failed. Accepted base URLs:\n" ++ s1, s2, ?_⟩
  rw [all_failed_msg, accepted_urls, hs, ← String.append_assoc, ← String.append_assoc]

theorem c7_all_fail_lists_candidates_witness :
    (get_cached_provider [] "sk-c7" = none ∧
      ∀ u ∈ get_all_base_urls [], (fun _ => false) u = false) ∧
    ((detect_provider [] "sk-c7" [] (fun _ => false) (fun _ => "401 unauthorized")).res
        = .error (all_failed_msg (get_all_base_urls [])) ∧
      (detect_provider [] "sk-c7" [] (fun _ => false) (fun _ => "401 unauthorized")).memo = [] ∧
      ∀ u ∈ get_all_base_urls [],
        ∃ s1 s2, all_failed_msg (get_all_base_urls []) = s1 ++ ("  - " ++ u) ++ s2) :=
  ⟨⟨rfl, fun _ _ => rfl⟩,
    c7_all_fail_lists_candidates [] "sk-c7" [] (fun _ => false) (fun _ => "401 unauthorized")
      rfl (fun _ _ => rfl)⟩

/-- C10.  A memo row whose stored `base_url` is NULL is indistinguishable
from an absent row: `get_cached_provider` returns `None` for it, so
`detect_provider` takes the miss path and runs the full trial round — its
action trace and its result are identical to those for an empty memo table,
for every credential, candidate list and outcome assignment. -/
theorem c10_null_memo_row_is_miss (api_key : String) (additional : List String)
    (ok : String → Bool) (err : String → String) :
    get_cached_provider [(hash_api_key api_key, none)] api_key = none ∧
      (detect_provider [(hash_api_key api_key, none)] api_key additional ok err).trace
        = (detect_provider [] api_key additional ok err).trace ∧
      (detect_provider [(hash_api_key api_key, none)] api_key additional ok err).res
        = (detect_provider [] api_key additional ok err).res := by
  have hmiss : get_cached_provider [(hash_api_key api_key, none)] api_key = none := by
    simp [get_cached_provider, lookupMemo]
  have hmiss2 : get_cached_provider [] api_key = none := rfl
  rcases houter : outerLoop ((get_all_base_urls additional).map
      (fun v => (v, ok v, if ok v then "" else err v))) (get_all_base_urls additional)
    with _ | u <;>
    simp [detect_provider, hmiss, hmiss2, houter]

/-- Models `SELECT value, is_stream FROM cache WHERE hashed_key = ?`: the cache
store maps a hashed key to the stored serialized value and its stream
flag. -/
def lookupCache (h : String) : List (String × String × Bool) → Option (String × Bool)
  | [] => none
  | (k, v, s) :: rest => if k == h then some (v, s) else lookupCache h rest

/-- Embeds `cache.py` `check_cache` (lines 23-42): one parameter, `request_hash`;
returns the cached entry (its serialized value and stream flag) or `None`
on a miss. -/
def check_cache (store : List (String × String × Bool)) (request_hash : String) :
    Option (String × Bool) :=
  lookupCache request_hash store

/-- Number of positional parameters `check_cache` declares
(`cache.py` line 24: `def check_cache(request_hash: str)`). -/
def check_cache_param_count : Nat := 1

/-- Number of positional arguments the call site passes
(`main.py` line 94: `check_cache(request_hash, simulate)`). -/
def check_cache_arg_count : Nat := 2

/-- Python call binding for the `main.py` line 94 call: binding
`check_cache_arg_count` positional arguments to `check_cache_param_count`
parameters raises `TypeError` before the function body (and thus the
database lookup) runs. -/
def callCheckCache (store : List (String × String × Bool)) (request_hash : String)
    (_simulate : Bool) : Except String (Option (String × Bool)) :=
  if check_cache_arg_count ≤ check_cache_param_count then
    .ok (check_cache store request_hash)
  else
    .error "TypeError: check_cache() takes 1 positional argument but 2 were given"

/-- What a request handler returns to the HTTP layer. -/
inductive POutcome where
  | cachedHit : POutcome
  | streamed : POutcome
  | completion : POutcome
deriving DecidableEq, Repr

/-- Result of one `process_chat_request` run: the ordered observable
actions, the memo table afterwards, and the returned outcome or raised
error. -/
structure ProcResult where
  trace : List PAction
  memo : List (String × Option String)
  result : Except String POutcome
deriving DecidableEq, Repr

/-- Embeds `main.py` lines 91-128 — the part of `process_chat_request` after the
provider is known.  With caching on, `get_request_hash(body)` is computed
and the `check_cache(request_hash, simulate)` call of line 94 is made; a
hit returns the cached response.  Otherwise: a streaming request returns a
`StreamingResponse` immediately (the generator, embedded separately as
`stream_response`, runs after the return), a non-streaming request awaits
the upstream completion and, with caching on, writes it through
`cache_response`. -/
def processAfterProvider (trace0 : List PAction) (memo : List (String × Option String))
    (use_cache : Bool) (store : List (String × String × Bool)) (body : JValue)
    (stream simulate : Bool) : ProcResult :=
  if use_cache then
    let request_hash := get_request_hash body
    match callCheckCache store request_hash simulate with
    | .error e => ⟨trace0, memo, .error e⟩
    | .ok r =>
      match r with
      | some _ => ⟨trace0 ++ [PAction.cacheLookup], memo, .ok POutcome.cachedHit⟩
      | none =>
        if stream then
          ⟨trace0 ++ [PAction.cacheLookup], memo, .ok POutcome.streamed⟩
        else
          ⟨trace0 ++ [PAction.cacheLookup, PAction.upstreamCall, PAction.cacheWrite],
            memo, .ok POutcome.completion⟩
  else
    if stream then ⟨trace0, memo, .ok POutcome.streamed⟩
    else ⟨trace0 ++ [PAction.upstreamCall], memo, .ok POutcome.completion⟩

/-- Embeds `main.py` `process_chat_request` (lines 38-128), restricted to bodies
whose model is not `"glm-4.6"` (the GLM preprocessing only rewrites the
body).  Sequencing as in the source: when the route supplied no provider,
`detect_provider` runs first — lines 85-87, before any cache access — then
the cache block of lines 91-98, then the upstream call.  An exception from
either step propagates to the route handler (HTTP 400). -/
def process_chat_request (providerArg : Option String) (api_key : String)
    (memo : List (String × Option String)) (additional : List String)
    (ok : String → Bool) (err : String → String) (use_cache : Bool)
    (store : List (String × String × Bool)) (body : JValue)
    (stream simulate : Bool) : ProcResult :=
  match providerArg with
  | some _ => processAfterProvider [] memo use_cache store body stream simulate
  | none =>
    let d := detect_provider memo api_key additional ok err
    match d.res with
    | .error e => ⟨d.trace, d.memo, .error e⟩
    | .ok _ => processAfterProvider d.trace d.memo use_cache store body stream simulate

/-- C5.  The cached-completion scenario cannot succeed on this code: with
caching enabled, `main.py` line 94 calls `check_cache(request_hash,
simulate)` while `cache.py` line 24 declares `check_cache(request_hash)`,
so every caching-enabled request — the first as well as the second — raises
`TypeError` before the cache is read and returns HTTP 400; the second call
never returns the first call's JSON, and nothing is ever read from or
written to the completion cache.  (The request still performs the
endpoint-resolution trials and the memo write first.)  The repository's own
test `test_api.py::test_cache_chat_completions_endpoint` expects both calls
to return 200 with equal bodies, so this is a bug in the code, not in the
claim. -/
theorem c5_check_cache_type_error :
    process_chat_request none "sk-c5" [] [] (fun _ => true) (fun _ => "") true
        [(get_request_hash sampleBody1, "cached-response-json", false)] sampleBody1
        false false
      = ⟨PAction.memoRead
          :: (get_all_base_urls []).map PAction.trial
          ++ [PAction.memoWrite "https://openrouter.ai/api/v1"],
        [(hash_api_key "sk-c5", some "https://openrouter.ai/api/v1")],
        .error "TypeError: check_cache() takes 1 positional argument but 2 were given"⟩ ∧
      PAction.upstreamCall
        ∉ (process_chat_request none "sk-c5" [] [] (fun _ => true) (fun _ => "") true
            [(get_request_hash sampleBody1, "cached-response-json", false)] sampleBody1
            false false).trace ∧
      PAction.cacheLookup
        ∉ (process_chat_request none "sk-c5" [] [] (fun _ => true) (fun _ => "") true
            [(get_request_hash sampleBody1, "cached-response-json", false)] sampleBody1
            false false).trace := by
  refine ⟨?_, ?_, ?_⟩ <;> decide

/-- C8.  Amended ordering.  With caching enabled and a credential that is
not memoized, `process_chat_request` issues the endpoint-resolution trial
requests to every candidate *before* any cache access; the cache lookup is
then never performed at all (the `check_cache` call raises `TypeError`
first), so a cache hit cannot short-circuit anything.  The claim's "lookup
happens before any upstream call" fails: trial upstream requests precede
the (attempted) lookup whenever the memo misses. -/
theorem c8_trials_before_lookup (api_key : String) (memo : List (String × Option String))
    (additional : List String) (ok : String → Bool) (err : String → String)
    (store : List (String × String × Bool)) (body : JValue) (stream simulate : Bool)
    (hmiss : get_cached_provider memo api_key = none) :
    ∃ tail,
      (process_chat_request none api_key memo additional ok err true store body
          stream simulate).trace
        = PAction.memoRead :: (get_all_base_urls additional).map PAction.trial ++ tail ∧
      PAction.cacheLookup
        ∉ (process_chat_request none api_key memo additional ok err true store body
            stream simulate).trace ∧
      ∃ e, (process_chat_request none api_key memo additional ok err true store body
          stream simulate).result = .error e := by
  rcases houter : outerLoop ((get_all_base_urls additional).map
      (fun v => (v, ok v, if ok v then "" else err v))) (get_all_base_urls additional)
    with _ | u
  · refine ⟨[], ?_, ?_, all_failed_msg (get_all_base_urls additional), ?_⟩ <;>
      simp [process_chat_request, detect_provider, hmiss, houter, PAction.trial.injEq]
  · refine ⟨[PAction.memoWrite u], ?_, ?_,
      "TypeError: check_cache() takes 1 positional argument but 2 were given", ?_⟩ <;>
      simp [process_chat_request, processAfterProvider, callCheckCache, check_cache_arg_count,
        check_cache_param_count, detect_provider, hmiss, houter]

/-- C8, counterexample.  A concrete caching-enabled request with an
unmemoized credential: the trace contains a trial upstream request to the
operator-supplied candidate and contains no cache-lookup action at all —
the lookup is not performed before (or after) the upstream traffic. -/
theorem c8_ordering_counterexample :
    PAction.trial "https://corp.example/v1"
        ∈ (process_chat_request none "sk-c8" [] ["https://corp.example/v1"]
            (fun _ => false) (fun _ => "401") true [] sampleBody2 true false).trace ∧
      PAction.cacheLookup
        ∉ (process_chat_request none "sk-c8" [] ["https://corp.example/v1"]
            (fun _ => false) (fun _ => "401") true [] sampleBody2 true false).trace := by
  refine ⟨?_, ?_⟩ <;> decide

theorem c8_trials_before_lookup_witness :
    get_cached_provider [] "sk-c8b" = none ∧
    ∃ tail,
      (process_chat_request none "sk-c8b" [] [] (fun _ => true) (fun _ => "") true []
          sampleBody1 false false).trace
        = PAction.memoRead :: (get_all_base_urls []).map PAction.trial ++ tail ∧
      PAction.cacheLookup
        ∉ (process_chat_request none "sk-c8b" [] [] (fun _ => true) (fun _ => "") true []
            sampleBody1 false false).trace ∧
      ∃ e, (process_chat_request none "sk-c8b" [] [] (fun _ => true) (fun _ => "") true []
          sampleBody1 false false).result = .error e :=
  ⟨rfl, c8_trials_before_lookup "sk-c8b" [] [] (fun _ => true) (fun _ => "") [] sampleBody1
    false false rfl⟩

end LlmCacheServer
